import Mathlib

/-!
Verification of the Knowledge Index Manager of the Voice-agent repository
(`knowledge_base.py`), as a shallow embedding in Lean.

Modelling conventions:
* Filesystem paths are lists of components; `os.path.join a b` is list append.
* Timestamps (`os.path.getmtime`, `last_build_time`) are naturals; only their
  ordering matters to the code.
* The filesystem is a `World`: the knowledge folders (path to source files),
  the saved vector stores (path to stored index data), and the metadata files
  (path to parsed JSON content).  The external FAISS library is modelled as a
  value-preserving store per its contract (`save_local` writes the index data
  at a path, `load_local` reads it back or fails); the external embedding
  model is an opaque function from text to an integer vector.
* Failure injection flags on the `World` model the exception sites of the
  Python code: embedding-model construction, `FAISS.load_local`,
  `FAISS.save_local`, and the metadata `json.dump` write.
* Exceptions are modelled by an `Option Err` component threaded through the
  results: `some e` means the Python call raised and the exception propagated
  to the caller; state changes made before the raise remain visible.
* A `World` carries an event trace recording embedding-model loads and the
  two write steps of `save_index`, to state ordering and once-per-process
  properties.
-/

namespace VoiceAgent

/-- A filesystem path, as its components (`os.path.join` is append). -/
abbrev Path := List String

/-- `KNOWLEDGE_FOLDER = "knowledge"` (module-level constant). -/
def KNOWLEDGE_FOLDER : Path := ["knowledge"]

/-- `INDEX_FOLDER = "kb_index"` (module-level constant). -/
def INDEX_FOLDER : Path := ["kb_index"]

/-- `METADATA_FILE = os.path.join(INDEX_FOLDER, "metadata.json")`. -/
def METADATA_FILE : Path := INDEX_FOLDER ++ ["metadata.json"]

/-- `SUPPORTED_EXTENSIONS = [".txt", ".md"]`. -/
def SUPPORTED_EXTENSIONS : List String := [".txt", ".md"]

/-- A file in a knowledge folder.  `mtime = none` models a file whose
`os.path.getmtime` raises; `content = none` models a file whose
`TextLoader.load` raises (e.g. undecodable bytes). -/
structure SrcFile where
  basename : String
  ext : String
  mtime : Option Nat
  content : Option String
deriving DecidableEq, Repr

/-- A loaded LangChain document: source file basename and its raw text. -/
structure Document where
  source : String
  text : String
deriving DecidableEq, Repr

/-- The FAISS vector store: (embedding vector, chunk text) pairs. -/
structure VectorDB where
  entries : List (List Int × String)
deriving DecidableEq, Repr

/-- The parsed content of `metadata.json`.  Fields are optional because the
code reads them with `metadata.get("last_build_time", 0.0)`. -/
structure StoredMeta where
  last_build_time : Option Nat
  file_count : Option Nat
deriving DecidableEq, Repr

/-- A metadata file on disk: readable JSON, or unreadable/corrupt (reading it
raises, caught at line 75 of `knowledge_base.py`). -/
inductive MetaContent where
  | valid (m : StoredMeta)
  | corrupt
deriving DecidableEq, Repr

/-- Trace events: a successful embedding-model construction, the
`save_local` write of vector data, and the `json.dump` write of metadata. -/
inductive Event where
  | embedLoad
  | saveVectors (path : Path)
  | saveMetadata (path : Path)
deriving DecidableEq, Repr

/-- Exceptions that escape the knowledge-base code (all other exception sites
are wrapped in `try/except` by the Python code). -/
inductive Err where
  | saveLocalErr
  | metaWriteErr
deriving DecidableEq, Repr

/-- The filesystem and failure-injection state. -/
structure World where
  folders : List (Path × List SrcFile)
  stores : List (Path × VectorDB)
  metas : List (Path × MetaContent)
  embedFails : Bool
  loadFails : Bool
  saveVecFails : Bool
  metaWriteFails : Bool
  events : List Event
deriving DecidableEq, Repr

/-- First-match association-list lookup. -/
def lookupP {β : Type} : List (Path × β) → Path → Option β
  | [], _ => none
  | (q, v) :: rest, p => if q = p then some v else lookupP rest p

/-- Overwrite the entry at a path (new binding shadows older ones). -/
def insertP {β : Type} (l : List (Path × β)) (p : Path) (v : β) : List (Path × β) :=
  (p, v) :: l

/-- The `KnowledgeBase` object state: constructor arguments and the two
mutable attributes `self.vector_db` and `self.loaded_files`. -/
structure KB where
  folder_path : Path
  index_path : Path
  vector_db : Option VectorDB
  loaded_files : List String
deriving DecidableEq, Repr

/-- `os.path.exists(dir)` for the index directory: true when a vector store
was saved there or some metadata file lies strictly inside it.  (Knowledge
folders and the index directory are disjoint namespaces in this model; no
claim configures one inside the other.) -/
def dirExistsB (w : World) (p : Path) : Bool :=
  (lookupP w.stores p).isSome ||
    w.metas.any (fun pr => decide (p <+: pr.1) && decide (p ≠ pr.1))

/-- `os.path.exists(METADATA_FILE)`-style check for a metadata file. -/
def fileExistsB (w : World) (p : Path) : Bool :=
  (lookupP w.metas p).isSome

/-- `glob.glob(os.path.join(folder, "*" + ext))`: the files of the folder
with the given extension, in folder order. -/
def globExt (files : List SrcFile) (ext : String) : List SrcFile :=
  files.filter (fun f => f.ext = ext)

/-- `KnowledgeBase._get_latest_modification_time`: 0.0 when the folder does
not exist, else the running maximum of `getmtime` over the supported files,
skipping files whose `getmtime` raises. -/
def getLatestModificationTime (folder_path : Path) (w : World) : Nat :=
  match lookupP w.folders folder_path with
  | none => 0
  | some files =>
      SUPPORTED_EXTENSIONS.foldl (fun acc ext =>
        (globExt files ext).foldl (fun a f =>
          match f.mtime with
          | none => a
          | some t => if t > a then t else a) acc) 0

/-- `KnowledgeBase._should_rebuild_index`. -/
def shouldRebuildIndex (kb : KB) (w : World) : Bool × String :=
  if !(dirExistsB w kb.index_path) || !(fileExistsB w METADATA_FILE) then
    (true, "Index or metadata missing")
  else
    match lookupP w.metas METADATA_FILE with
    | none => (true, "Error reading metadata")
    | some MetaContent.corrupt => (true, "Error reading metadata")
    | some (MetaContent.valid m) =>
        let last_build_time := m.last_build_time.getD 0
        let latest_file_time := getLatestModificationTime kb.folder_path w
        if last_build_time < latest_file_time then
          (true, "Files modified since last build")
        else
          (false, "Index is up to date")

/-- The per-extension, per-file loading loop of
`KnowledgeBase._get_all_documents`: loaded documents and their basenames, in
discovery order; files whose loader raises are skipped. -/
def collectFromFiles (files : List SrcFile) : List Document × List String :=
  SUPPORTED_EXTENSIONS.foldl (fun acc ext =>
    (globExt files ext).foldl (fun a f =>
      match f.content with
      | none => a
      | some txt => (a.1 ++ [⟨f.basename, txt⟩], a.2 ++ [f.basename])) acc) ([], [])

/-- `KnowledgeBase._get_all_documents`: creates the knowledge folder when it
is absent (returning no documents), otherwise loads the supported files and
appends their basenames to `self.loaded_files`. -/
def getAllDocuments (kb : KB) (w : World) : List Document × KB × World :=
  match lookupP w.folders kb.folder_path with
  | none => ([], kb, { w with folders := insertP w.folders kb.folder_path [] })
  | some files =>
      let r := collectFromFiles files
      (r.1, { kb with loaded_files := kb.loaded_files ++ r.2 }, w)

/-- The documents `_get_all_documents` yields for a folder, as a pure
projection of the world (empty when the folder is absent). -/
def collectedDocs (folder_path : Path) (w : World) : List Document :=
  match lookupP w.folders folder_path with
  | none => []
  | some files => (collectFromFiles files).1

/-- The embedding capability (`HuggingFaceEmbeddings.embed`): opaque map from
text to a vector. -/
abbrev Emb := String → List Int

/-- `FAISS.from_documents(docs, embeddings)`: embed every chunk once and
store (vector, text) pairs. -/
def faissFromDocuments (docs : List Document) (emb : Emb) : VectorDB :=
  ⟨docs.map (fun d => (emb d.text, d.text))⟩

/-- Inner product, the similarity score of the vector-store model. -/
def dot (v w : List Int) : Int :=
  (v.zip w).foldl (fun a p => a + p.1 * p.2) 0

/-- Stable descending insertion for ranking by score. -/
def insertRanked (x : Int × String) : List (Int × String) → List (Int × String)
  | [] => [x]
  | y :: ys => if y.1 < x.1 then x :: y :: ys else y :: insertRanked x ys

/-- Stable descending sort by score. -/
def rankEntries (l : List (Int × String)) : List (Int × String) :=
  l.foldr insertRanked []

/-- `FAISS.similarity_search(query, k)`: the texts of the `k` entries most
similar to the query embedding, most-similar first, stable on ties. -/
def similaritySearch (db : VectorDB) (emb : Emb) (q : String) (k : Nat) : List String :=
  (rankEntries (db.entries.map (fun e => (dot (emb q) e.1, e.2)))).take k |>.map (·.2)

/-- `FAISS.save_local(path)`: write the index data at the path and record the
write in the trace. -/
def saveLocal (w : World) (p : Path) (db : VectorDB) : World :=
  { w with stores := insertP w.stores p db, events := w.events ++ [Event.saveVectors p] }

/-- `FAISS.load_local(path, ...)`: the saved data, or `none` when the stored
files are absent or deserialization fails. -/
def loadLocal (w : World) (p : Path) : Option VectorDB :=
  if w.loadFails then none else lookupP w.stores p

/-- The metadata `json.dump` write, recorded in the trace. -/
def writeMeta (w : World) (p : Path) (c : MetaContent) : World :=
  { w with metas := insertP w.metas p c, events := w.events ++ [Event.saveMetadata p] }

/-- `KnowledgeBase.save_index`: no-op without an index; otherwise
`save_local` to `self.index_path`, then write metadata (with
`last_build_time` re-read from the source folder) to the module-level
`METADATA_FILE`.  Neither step is guarded by `try/except`, so an injected
failure raises (returns `some e`) with the earlier steps' effects kept. -/
def saveIndex (kb : KB) (w : World) : World × Option Err :=
  match kb.vector_db with
  | none => (w, none)
  | some db =>
      if w.saveVecFails then (w, some Err.saveLocalErr)
      else
        let w1 := saveLocal w kb.index_path db
        if w.metaWriteFails then (w1, some Err.metaWriteErr)
        else
          let m : StoredMeta :=
            { last_build_time := some (getLatestModificationTime kb.folder_path w1),
              file_count := some kb.loaded_files.length }
          (writeMeta w1 METADATA_FILE (MetaContent.valid m), none)

/-- The rebuild tail of `KnowledgeBase._initialize_kb` (lines 144-160):
collect documents, return early when none, else split, build the FAISS
store, assign `self.vector_db`, then `save_index` (unguarded). -/
def rebuildPath (sp : List Document → List Document) (emb : Emb) (kb : KB) (w : World) :
    KB × World × Option Err :=
  let r := getAllDocuments kb w
  if r.1.isEmpty then (r.2.1, r.2.2, none)
  else
    let docs := sp r.1
    let kb2 := { r.2.1 with vector_db := some (faissFromDocuments docs emb) }
    let s := saveIndex kb2 r.2.2
    (kb2, s.1, s.2)

/-- `KnowledgeBase._initialize_kb`: construct the embedding model (failure is
caught: early return), decide staleness, on reuse try `load_local` (failure
is caught: fall through to the rebuild tail), else rebuild. -/
def initKb (sp : List Document → List Document) (emb : Emb) (kb : KB) (w : World) :
    KB × World × Option Err :=
  if w.embedFails then (kb, w, none)
  else
    let w0 := { w with events := w.events ++ [Event.embedLoad] }
    let d := shouldRebuildIndex kb w0
    if !d.1 then
      match loadLocal w0 kb.index_path with
      | some db => ({ kb with vector_db := some db }, w0, none)
      | none => rebuildPath sp emb kb w0
    else rebuildPath sp emb kb w0

/-- The fixed sentinel returned by `search` when no index is active. -/
def NOT_INITIALIZED : String :=
  "Knowledge base not initialized. Add documents to the 'knowledge/' folder."

/-- `KnowledgeBase.search(query, k)`. -/
def KB.search (kb : KB) (emb : Emb) (q : String) (k : Nat) : String :=
  match kb.vector_db with
  | none => NOT_INITIALIZED
  | some db => String.intercalate "\n\n" (similaritySearch db emb q k)

/-- `KnowledgeBase.list_files()`. -/
def KB.list_files (kb : KB) : List String := kb.loaded_files

/-- `shutil.rmtree(dir)`: remove the stores and metadata files at or below
the directory. -/
def rmtree (w : World) (dir : Path) : World :=
  { w with
    stores := w.stores.filter (fun pr => ¬ dir <+: pr.1),
    metas := w.metas.filter (fun pr => ¬ dir <+: pr.1) }

/-- `KnowledgeBase.reload()`: delete the on-disk index when present, clear
`self.loaded_files` and `self.vector_db`, then run `_initialize_kb`. -/
def KB.reload (sp : List Document → List Document) (emb : Emb) (kb : KB) (w : World) :
    KB × World × Option Err :=
  let w1 := if dirExistsB w kb.index_path then rmtree w kb.index_path else w
  initKb sp emb { kb with loaded_files := [], vector_db := none } w1

/-- `KnowledgeBase.__init__(folder_path, index_path)`. -/
def KB.init (sp : List Document → List Document) (emb : Emb) (folder index : Path)
    (w : World) : KB × World × Option Err :=
  initKb sp emb ⟨folder, index, none, []⟩ w

/-- Number of successful embedding-model constructions in a trace. -/
def countEmbedLoads (es : List Event) : Nat :=
  (es.filter (fun e => e = Event.embedLoad)).length

/-! ### Concrete fixtures used to witness the theorems -/

/-- A concrete embedding: text length as a one-dimensional vector. -/
def embA : Emb := fun s => [(s.length : Int)]

/-- An older source file. -/
def fileA : SrcFile := ⟨"faq.md", ".md", some 5, some "Checked bags up to 23kg are free."⟩

/-- A newer source file. -/
def fileB : SrcFile := ⟨"pets.md", ".md", some 9, some "Pets policy."⟩

/-- Fresh world: two readable files, nothing cached, no injected failures. -/
def worldA : World := ⟨[(KNOWLEDGE_FOLDER, [fileA, fileB])], [], [], false, false, false, false, []⟩

/-- Like `worldA` but the `save_local` step raises. -/
def worldSaveFail : World :=
  ⟨[(KNOWLEDGE_FOLDER, [fileA, fileB])], [], [], false, false, true, false, []⟩

/-- A previously persisted index value. -/
def dbOld : VectorDB := ⟨[([1], "old entry")]⟩

/-- Up-to-date cache on disk, but deserialization of the store raises. -/
def worldCurLoadFail : World :=
  ⟨[(KNOWLEDGE_FOLDER, [fileA, fileB])], [(INDEX_FOLDER, dbOld)],
    [(METADATA_FILE, MetaContent.valid ⟨some 9, some 2⟩)], false, true, false, false, []⟩

/-- Metadata present under a custom index folder, none at the default path. -/
def worldCustomMeta : World :=
  ⟨[(KNOWLEDGE_FOLDER, [fileA, fileB])], [(["custom"], dbOld)],
    [(["custom", "metadata.json"], MetaContent.valid ⟨some 100, some 2⟩)],
    false, false, false, false, []⟩

/-- Empty knowledge folder, cache present from an earlier run. -/
def worldEmptyFolder : World :=
  ⟨[(KNOWLEDGE_FOLDER, [])], [(INDEX_FOLDER, dbOld)],
    [(METADATA_FILE, MetaContent.valid ⟨some 9, some 2⟩)], false, false, false, false, []⟩

/-! ### Helper lemmas shared by the claim proofs -/

theorem lookupP_insert_self {β : Type} (l : List (Path × β)) (p : Path) (v : β) :
    lookupP (insertP l p v) p = some v := by
  simp [insertP, lookupP]

theorem lookupP_insert_ne {β : Type} (l : List (Path × β)) (p q : Path) (v : β)
    (h : p ≠ q) : lookupP (insertP l p v) q = lookupP l q := by
  simp [insertP, lookupP, h]

/-- The staleness decision reads no trace events. -/
theorem shouldRebuild_events (kb : KB) (w : World) (es : List Event) :
    shouldRebuildIndex kb { w with events := es } = shouldRebuildIndex kb w := rfl

/-- The staleness decision reads only the filesystem parts of the world. -/
theorem shouldRebuild_canon (kb : KB) (fo : List (Path × List SrcFile))
    (st : List (Path × VectorDB)) (me : List (Path × MetaContent))
    (a b c d : Bool) (ev : List Event) :
    shouldRebuildIndex kb ⟨fo, st, me, a, b, c, d, ev⟩ =
      shouldRebuildIndex kb ⟨fo, st, me, false, false, false, false, []⟩ := rfl

/-- Document collection reads only the knowledge folders. -/
theorem collectedDocs_canon (fp : Path) (fo : List (Path × List SrcFile))
    (st : List (Path × VectorDB)) (me : List (Path × MetaContent))
    (a b c d : Bool) (ev : List Event) :
    collectedDocs fp ⟨fo, st, me, a, b, c, d, ev⟩ =
      collectedDocs fp ⟨fo, [], [], false, false, false, false, []⟩ := rfl

/-- The latest-mtime scan reads only the knowledge folders. -/
theorem getLatest_canon (fp : Path) (fo : List (Path × List SrcFile))
    (st : List (Path × VectorDB)) (me : List (Path × MetaContent))
    (a b c d : Bool) (ev : List Event) :
    getLatestModificationTime fp ⟨fo, st, me, a, b, c, d, ev⟩ =
      getLatestModificationTime fp ⟨fo, [], [], false, false, false, false, []⟩ := rfl

/-- The latest-mtime scan ignores every world field except the folders. -/
theorem getLatest_proj (fp : Path) (w : World) (st : List (Path × VectorDB))
    (me : List (Path × MetaContent)) (a b c d : Bool) (ev : List Event) :
    getLatestModificationTime fp ⟨w.folders, st, me, a, b, c, d, ev⟩ =
      getLatestModificationTime fp w := rfl

/-- `load_local` reads only the stores and the injected load-failure flag. -/
theorem loadLocal_canon (p : Path) (fo : List (Path × List SrcFile))
    (st : List (Path × VectorDB)) (me : List (Path × MetaContent))
    (a lF c d : Bool) (ev : List Event) :
    loadLocal ⟨fo, st, me, a, lF, c, d, ev⟩ p =
      loadLocal ⟨[], st, [], false, lF, false, false, []⟩ p := rfl

/-- The trace appended by `save_index` is nothing, the vector write alone, or
the vector write followed by the metadata write. -/
theorem saveIndex_events (kb : KB) (w : World) :
    (saveIndex kb w).1.events = w.events ∨
    (saveIndex kb w).1.events = w.events ++ [Event.saveVectors kb.index_path] ∨
    (saveIndex kb w).1.events =
      w.events ++ [Event.saveVectors kb.index_path, Event.saveMetadata METADATA_FILE] := by
  cases hdb : kb.vector_db with
  | none => simp [saveIndex, hdb]
  | some db =>
      by_cases h1 : w.saveVecFails
      · simp [saveIndex, hdb, h1]
      · by_cases h2 : w.metaWriteFails
        · simp [saveIndex, hdb, h1, h2, saveLocal]
        · simp [saveIndex, hdb, h1, h2, saveLocal, writeMeta]

theorem countEmbedLoads_append (es fs : List Event) :
    countEmbedLoads (es ++ fs) = countEmbedLoads es + countEmbedLoads fs := by
  simp [countEmbedLoads, List.filter_append]

theorem countEmbedLoads_saveEvents (p q : Path) :
    countEmbedLoads [Event.saveVectors p] = 0 ∧
    countEmbedLoads [Event.saveVectors p, Event.saveMetadata q] = 0 := by
  simp [countEmbedLoads]

theorem countEmbed_saveIndex (kb : KB) (w : World) :
    countEmbedLoads (saveIndex kb w).1.events = countEmbedLoads w.events := by
  rcases saveIndex_events kb w with h | h | h <;>
    simp [h, countEmbedLoads_append, countEmbedLoads]

theorem countEmbed_rebuildPath (sp : List Document → List Document) (emb : Emb)
    (kb : KB) (w : World) :
    countEmbedLoads (rebuildPath sp emb kb w).2.1.events = countEmbedLoads w.events := by
  unfold rebuildPath getAllDocuments
  cases hfold : lookupP w.folders kb.folder_path with
  | none => simp
  | some files =>
      by_cases hds : (collectFromFiles files).1.isEmpty
      · simp [hds]
      · simp [hds, countEmbed_saveIndex]

/-- Every `_initialize_kb` pass with a working embedding model constructs
the embedding provider exactly once more. -/
theorem countEmbed_initKb (sp : List Document → List Document) (emb : Emb) (kb : KB)
    (w : World) (hE : w.embedFails = false) :
    countEmbedLoads (initKb sp emb kb w).2.1.events = countEmbedLoads w.events + 1 := by
  have hone : countEmbedLoads (w.events ++ [Event.embedLoad]) =
      countEmbedLoads w.events + 1 := by
    simp [countEmbedLoads_append, countEmbedLoads]
  cases hd : (shouldRebuildIndex kb
      { w with embedFails := false, events := w.events ++ [Event.embedLoad] }).1 with
  | true => simp [initKb, hE, hd, countEmbed_rebuildPath, hone]
  | false =>
      cases hl : loadLocal
          { w with embedFails := false, events := w.events ++ [Event.embedLoad] }
          kb.index_path with
      | none => simp [initKb, hE, hd, hl, countEmbed_rebuildPath, hone]
      | some db => simp [initKb, hE, hd, hl, hone]

theorem lookupP_filter_not_prefix {β : Type} (l : List (Path × β)) (dir : Path) :
    lookupP (l.filter (fun pr => ¬ dir <+: pr.1)) dir = none := by
  induction l with
  | nil => rfl
  | cons hd tl ih =>
      simp only [decide_not] at ih ⊢
      by_cases h : dir <+: hd.1
      · simpa [List.filter_cons, h] using ih
      · have hne : hd.1 ≠ dir := by
          intro e
          exact h (e ▸ ⟨[], by simp⟩)
        simp [List.filter_cons, h, lookupP, hne, ih]

/-- After `rmtree(dir)` the index directory no longer exists. -/
theorem rmtree_dirExists (w : World) (dir : Path) :
    dirExistsB (rmtree w dir) dir = false := by
  simp only [dirExistsB, rmtree, lookupP_filter_not_prefix, Option.isSome_none,
    Bool.false_or, List.any_eq_false]
  intro pr hmem
  rcases List.mem_filter.mp hmem with ⟨-, hpred⟩
  simp only [decide_not, Bool.not_eq_eq_eq_not, Bool.not_true, decide_eq_false_iff_not] at hpred
  simp [hpred]

/-- With the index directory absent, the staleness check answers missing. -/
theorem shouldRebuild_noDir (kb : KB) (w : World)
    (h : dirExistsB w kb.index_path = false) :
    shouldRebuildIndex kb w = (true, "Index or metadata missing") := by
  simp [shouldRebuildIndex, h]

/-- With a working embedding model and a positive staleness decision,
`_initialize_kb` is exactly the rebuild tail. -/
theorem initKb_rebuild (sp : List Document → List Document) (emb : Emb) (kb : KB)
    (w : World) (hE : w.embedFails = false)
    (hsr : (shouldRebuildIndex kb w).1 = true) :
    initKb sp emb kb w =
      rebuildPath sp emb kb { w with events := w.events ++ [Event.embedLoad] } := by
  obtain ⟨fo, st, me, eF, lF, sF, mF, ev⟩ := w
  have hE' : eF = false := hE
  subst hE'
  simp only [shouldRebuild_canon] at hsr
  simp [initKb, shouldRebuild_canon, hsr]

theorem foldCollect_balanced (l : List SrcFile) (acc : List Document × List String)
    (h : acc.1.length = acc.2.length) :
    (l.foldl (fun a f =>
        match f.content with
        | none => a
        | some txt => (a.1 ++ [⟨f.basename, txt⟩], a.2 ++ [f.basename])) acc).1.length =
      (l.foldl (fun a f =>
        match f.content with
        | none => a
        | some txt => (a.1 ++ [⟨f.basename, txt⟩], a.2 ++ [f.basename])) acc).2.length := by
  induction l generalizing acc with
  | nil => exact h
  | cons f fs ih =>
      cases hc : f.content with
      | none => simpa [hc] using ih acc h
      | some txt => simpa [hc] using ih _ (by simp [h])

/-- A document and a basename are recorded together, so zero collected
documents means zero recorded basenames. -/
theorem collectFromFiles_balanced (files : List SrcFile)
    (h : (collectFromFiles files).1 = []) : (collectFromFiles files).2 = [] := by
  have hlen : (collectFromFiles files).1.length = (collectFromFiles files).2.length := by
    unfold collectFromFiles
    simp only [SUPPORTED_EXTENSIONS, List.foldl_cons, List.foldl_nil]
    exact foldCollect_balanced _ _ (foldCollect_balanced _ _ rfl)
  rw [h] at hlen
  exact List.eq_nil_of_length_eq_zero hlen.symm

/-- A rebuild that collects no documents changes neither the index nor the
loaded-files list and raises nothing. -/
theorem rebuildPath_empty (sp : List Document → List Document) (emb : Emb) (kb : KB)
    (w : World) (hcd : collectedDocs kb.folder_path w = []) :
    (rebuildPath sp emb kb w).1.vector_db = kb.vector_db ∧
    (rebuildPath sp emb kb w).1.loaded_files = kb.loaded_files ∧
    (rebuildPath sp emb kb w).2.2 = none := by
  unfold rebuildPath getAllDocuments
  cases hfold : lookupP w.folders kb.folder_path with
  | none => simp
  | some files =>
      have h1 : (collectFromFiles files).1 = [] := by
        simpa [collectedDocs, hfold] using hcd
      have h2 : (collectFromFiles files).2 = [] := collectFromFiles_balanced files h1
      simp [h1, h2]

/-- A rebuild leaves either the incoming index or a freshly built one. -/
theorem rebuildPath_vector_db (sp : List Document → List Document) (emb : Emb) (kb : KB)
    (w : World) :
    (rebuildPath sp emb kb w).1.vector_db = kb.vector_db ∨
    (rebuildPath sp emb kb w).1.vector_db =
      some (faissFromDocuments (sp (collectedDocs kb.folder_path w)) emb) := by
  unfold rebuildPath getAllDocuments
  cases hfold : lookupP w.folders kb.folder_path with
  | none => simp
  | some files =>
      by_cases hds : (collectFromFiles files).1.isEmpty
      · simp [hds]
      · right
        simp [hds, collectedDocs, hfold]

/-! ### Claims -/

/-- C1: `_should_rebuild_index` answers "Index or metadata missing" whenever
the index storage or the metadata record is absent, regardless of
source-file times; with both present and the metadata readable it answers
"Files modified since last build" exactly when the maximum modification time
of the supported source files strictly exceeds the recorded
`last_build_time`; and a nonexistent or empty source folder contributes a
latest mtime of 0 (the epoch). -/
theorem claim_C1_should_rebuild_decision :
    (∀ (w : World) (fp : Path), lookupP w.folders fp = none →
        getLatestModificationTime fp w = 0) ∧
    (∀ (w : World) (fp : Path), lookupP w.folders fp = some [] →
        getLatestModificationTime fp w = 0) ∧
    (∀ (kb : KB) (w : World),
        dirExistsB w kb.index_path = false ∨ fileExistsB w METADATA_FILE = false →
        shouldRebuildIndex kb w = (true, "Index or metadata missing")) ∧
    (∀ (kb : KB) (w : World) (m : StoredMeta),
        dirExistsB w kb.index_path = true →
        lookupP w.metas METADATA_FILE = some (MetaContent.valid m) →
        (shouldRebuildIndex kb w = (true, "Files modified since last build") ↔
          m.last_build_time.getD 0 < getLatestModificationTime kb.folder_path w)) := by
  refine ⟨?_, ?_, ?_, ?_⟩
  · intro w fp h
    simp [getLatestModificationTime, h]
  · intro w fp h
    simp [getLatestModificationTime, h, globExt, SUPPORTED_EXTENSIONS]
  · intro kb w h
    rcases h with h | h <;> simp [shouldRebuildIndex, h]
  · intro kb w m hdir hm
    have hfile : fileExistsB w METADATA_FILE = true := by
      simp [fileExistsB, hm]
    have hred : shouldRebuildIndex kb w =
        if m.last_build_time.getD 0 < getLatestModificationTime kb.folder_path w then
          (true, "Files modified since last build")
        else (false, "Index is up to date") := by
      simp [shouldRebuildIndex, hdir, hfile, hm]
    rw [hred]
    by_cases hlt : m.last_build_time.getD 0 < getLatestModificationTime kb.folder_path w
    · simp [hlt]
    · simp [hlt]

theorem claim_C1_witness :
    shouldRebuildIndex ⟨KNOWLEDGE_FOLDER, INDEX_FOLDER, none, []⟩ worldA =
      (true, "Index or metadata missing") :=
  claim_C1_should_rebuild_decision.2.2.1 _ _ (Or.inl (by decide))

/-- C2: `search` is a total function into strings (so it never throws); when
no index is active it returns the fixed "not initialized" sentinel, and an
active index yields the blank-line join of the retrieved chunk texts.  An
index fails to become active exactly when the embedding model fails to load
or the rebuild collects zero documents. -/
theorem claim_C2_search_total :
    (∀ (kb : KB) (emb : Emb) (q : String) (k : Nat),
        kb.vector_db = none → KB.search kb emb q k = NOT_INITIALIZED) ∧
    (∀ (kb : KB) (emb : Emb) (q : String) (k : Nat) (db : VectorDB),
        kb.vector_db = some db →
        KB.search kb emb q k =
          String.intercalate "\n\n" (similaritySearch db emb q k)) ∧
    (∀ (sp : List Document → List Document) (emb : Emb) (f i : Path) (w : World)
        (q : String) (k : Nat), w.embedFails = true →
        KB.search (KB.init sp emb f i w).1 emb q k = NOT_INITIALIZED) ∧
    (∀ (sp : List Document → List Document) (emb : Emb) (f i : Path) (w : World)
        (q : String) (k : Nat), w.embedFails = false →
        (shouldRebuildIndex ⟨f, i, none, []⟩ w).1 = true →
        collectedDocs f w = [] →
        KB.search (KB.init sp emb f i w).1 emb q k = NOT_INITIALIZED) := by
  refine ⟨?_, ?_, ?_, ?_⟩
  · intro kb emb q k h
    simp [KB.search, h]
  · intro kb emb q k db h
    simp [KB.search, h]
  · intro sp emb f i w q k hE
    simp [KB.init, initKb, hE, KB.search]
  · intro sp emb f i w q k hE hsr hcd
    obtain ⟨fo, st, me, eF, lF, sF, mF, ev⟩ := w
    have hE' : eF = false := hE
    subst hE'
    simp only [shouldRebuild_canon] at hsr
    cases hfold : lookupP fo f with
    | none =>
        simp [KB.init, initKb, shouldRebuild_canon, hsr, rebuildPath, getAllDocuments,
          hfold, KB.search]
    | some files =>
        have hcd0 : (collectFromFiles files).1 = [] := by
          simpa [collectedDocs, hfold] using hcd
        simp [KB.init, initKb, shouldRebuild_canon, hsr, rebuildPath, getAllDocuments,
          hfold, hcd0, KB.search]

theorem claim_C2_witness :
    KB.search ⟨KNOWLEDGE_FOLDER, INDEX_FOLDER, none, []⟩ embA "baggage" 3 = NOT_INITIALIZED :=
  claim_C2_search_total.1 _ _ _ _ rfl

/-- C6: every `save_index` writes the vector data strictly before the
metadata record: its trace suffix is nothing, the vector write alone, or the
vector write followed by the metadata write; and whenever a save touches the
metadata record, the store at the instance's index path already holds
exactly the in-memory index — so a metadata record never appears before its
companion vector store within a save. -/
theorem claim_C6_vectors_before_metadata :
    (∀ (kb : KB) (w : World),
        (saveIndex kb w).1.events = w.events ∨
        (saveIndex kb w).1.events = w.events ++ [Event.saveVectors kb.index_path] ∨
        (saveIndex kb w).1.events =
          w.events ++ [Event.saveVectors kb.index_path, Event.saveMetadata METADATA_FILE]) ∧
    (∀ (kb : KB) (w : World),
        lookupP (saveIndex kb w).1.metas METADATA_FILE ≠ lookupP w.metas METADATA_FILE →
        lookupP (saveIndex kb w).1.stores kb.index_path = kb.vector_db) := by
  refine ⟨saveIndex_events, ?_⟩
  intro kb w h
  cases hdb : kb.vector_db with
  | none => exact absurd (by simp [saveIndex, hdb]) h
  | some db =>
      by_cases h1 : w.saveVecFails
      · exact absurd (by simp [saveIndex, hdb, h1]) h
      · by_cases h2 : w.metaWriteFails
        · exact absurd (by simp [saveIndex, hdb, h1, h2, saveLocal]) h
        · simp [saveIndex, hdb, h1, h2, saveLocal, writeMeta, lookupP_insert_self]

theorem claim_C6_witness :
    lookupP (saveIndex ⟨KNOWLEDGE_FOLDER, INDEX_FOLDER, some dbOld, ["faq.md"]⟩ worldA).1.stores
      INDEX_FOLDER = some dbOld :=
  claim_C6_vectors_before_metadata.2 ⟨KNOWLEDGE_FOLDER, INDEX_FOLDER, some dbOld, ["faq.md"]⟩
    worldA (by decide)

/-- C9: the metadata record lives at the module-level constant
`kb_index/metadata.json`, derived from the default index folder and
independent of the instance's `index_path`: saves change no other metadata
path yet always write a valid record there, and a staleness check with
metadata present only under a custom index path (none at the fixed path)
still answers "Index or metadata missing". -/
theorem claim_C9_metadata_fixed_path :
    (METADATA_FILE = ["kb_index", "metadata.json"]) ∧
    (∀ (kb : KB) (w : World) (p : Path), p ≠ METADATA_FILE →
        lookupP (saveIndex kb w).1.metas p = lookupP w.metas p) ∧
    (∀ (kb : KB) (w : World) (db : VectorDB), kb.vector_db = some db →
        w.saveVecFails = false → w.metaWriteFails = false →
        lookupP (saveIndex kb w).1.metas METADATA_FILE =
          some (MetaContent.valid
            ⟨some (getLatestModificationTime kb.folder_path w),
             some kb.loaded_files.length⟩)) ∧
    (∀ (kb : KB) (w : World) (c : MetaContent),
        lookupP w.metas (kb.index_path ++ ["metadata.json"]) = some c →
        lookupP w.metas METADATA_FILE = none →
        shouldRebuildIndex kb w = (true, "Index or metadata missing")) := by
  refine ⟨rfl, ?_, ?_, ?_⟩
  · intro kb w p hp
    cases hdb : kb.vector_db with
    | none => simp [saveIndex, hdb]
    | some db =>
        by_cases h1 : w.saveVecFails
        · simp [saveIndex, hdb, h1]
        · by_cases h2 : w.metaWriteFails
          · simp [saveIndex, hdb, h1, h2, saveLocal]
          · simp [saveIndex, hdb, h1, h2, saveLocal, writeMeta,
              lookupP_insert_ne _ _ _ _ (Ne.symm hp)]
  · intro kb w db hdb h1 h2
    simp [saveIndex, hdb, h1, h2, saveLocal, writeMeta, lookupP_insert_self, getLatest_proj]
  · intro kb w c _hc hnone
    simp [shouldRebuildIndex, fileExistsB, hnone]

theorem claim_C9_witness :
    shouldRebuildIndex ⟨KNOWLEDGE_FOLDER, ["custom"], none, []⟩ worldCustomMeta =
      (true, "Index or metadata missing") :=
  claim_C9_metadata_fixed_path.2.2.2 ⟨KNOWLEDGE_FOLDER, ["custom"], none, []⟩ worldCustomMeta
    (MetaContent.valid ⟨some 100, some 2⟩) (by decide) (by decide)

/-- C5: after every rebuild (the rebuild tail of `_initialize_kb`, reached
from construction or `reload`), the stored `last_build_time` equals the
maximum modification time over the supported source files observed at build
time — not the wall-clock time of the build; with two files present, the
observed maximum is exactly the newer file's mtime. -/
theorem claim_C5_last_build_time :
    (∀ (sp : List Document → List Document) (emb : Emb) (kb : KB) (w : World),
        w.embedFails = false →
        (shouldRebuildIndex kb w).1 = true →
        collectedDocs kb.folder_path w ≠ [] →
        w.saveVecFails = false → w.metaWriteFails = false →
        ∃ m : StoredMeta,
          lookupP (initKb sp emb kb w).2.1.metas METADATA_FILE =
            some (MetaContent.valid m) ∧
          m.last_build_time = some (getLatestModificationTime kb.folder_path w)) ∧
    (∀ (w : World) (fp : Path) (f1 f2 : SrcFile) (t1 t2 : Nat),
        lookupP w.folders fp = some [f1, f2] →
        f1.ext = ".md" → f2.ext = ".md" →
        f1.mtime = some t1 → f2.mtime = some t2 → t1 ≤ t2 →
        getLatestModificationTime fp w = t2) := by
  constructor
  · intro sp emb kb w hE hsr hcd h1 h2
    obtain ⟨fo, st, me, eF, lF, sF, mF, ev⟩ := w
    have hE' : eF = false := hE
    have h1' : sF = false := h1
    have h2' : mF = false := h2
    subst hE' h1' h2'
    simp only [shouldRebuild_canon] at hsr
    cases hfold : lookupP fo kb.folder_path with
    | none => exact absurd (by simp [collectedDocs, hfold]) hcd
    | some files =>
        cases hds : (collectFromFiles files).1 with
        | nil => exact absurd (by simp [collectedDocs, hfold, hds]) hcd
        | cons d ds =>
            simp [initKb, shouldRebuild_canon, hsr, rebuildPath, getAllDocuments, hfold,
              hds, saveIndex, saveLocal, writeMeta, lookupP_insert_self, getLatest_canon]
  · intro w fp f1 f2 t1 t2 hfold he1 he2 hm1 hm2 hle
    simp [getLatestModificationTime, hfold, SUPPORTED_EXTENSIONS, globExt,
      he1, he2, hm1, hm2]
    split_ifs <;> omega

theorem claim_C5_witness :
    ∃ m : StoredMeta,
      lookupP (initKb id embA ⟨KNOWLEDGE_FOLDER, INDEX_FOLDER, none, []⟩ worldA).2.1.metas
          METADATA_FILE = some (MetaContent.valid m) ∧
      m.last_build_time = some (getLatestModificationTime KNOWLEDGE_FOLDER worldA) :=
  claim_C5_last_build_time.1 id embA ⟨KNOWLEDGE_FOLDER, INDEX_FOLDER, none, []⟩ worldA
    rfl (by decide) (by decide) rfl rfl

/-- C3 counterexample: with two readable source files and a `save_local`
step that raises, constructing the knowledge base surfaces the save error to
the caller (the claim says the failure is never surfaced), even though the
in-memory index was built and assigned. -/
theorem claim_C3_counterexample :
    (KB.init id embA KNOWLEDGE_FOLDER INDEX_FOLDER worldSaveFail).2.2 =
      some Err.saveLocalErr ∧
    (KB.init id embA KNOWLEDGE_FOLDER INDEX_FOLDER worldSaveFail).1.vector_db ≠ none := by
  decide

/-- C3 (amended): if the persistence save step fails after a successful
in-memory build, the exception propagates uncaught to the caller of the
rebuild; the in-memory index attribute remains set to the newly built index
at the point of failure, and the durable store and metadata record are left
untouched.  (`save_index` is called with no `try/except` around it, so
nothing is logged and the error is surfaced.) -/
theorem claim_C3_save_failure_propagates :
    ∀ (sp : List Document → List Document) (emb : Emb) (kb : KB) (w : World),
      w.embedFails = false →
      (shouldRebuildIndex kb w).1 = true →
      collectedDocs kb.folder_path w ≠ [] →
      w.saveVecFails = true →
      (initKb sp emb kb w).2.2 = some Err.saveLocalErr ∧
      (initKb sp emb kb w).1.vector_db =
        some (faissFromDocuments (sp (collectedDocs kb.folder_path w)) emb) ∧
      lookupP (initKb sp emb kb w).2.1.stores kb.index_path = lookupP w.stores kb.index_path ∧
      lookupP (initKb sp emb kb w).2.1.metas METADATA_FILE =
        lookupP w.metas METADATA_FILE := by
  intro sp emb kb w hE hsr hcd h1
  obtain ⟨fo, st, me, eF, lF, sF, mF, ev⟩ := w
  have hE' : eF = false := hE
  have h1' : sF = true := h1
  subst hE' h1'
  simp only [shouldRebuild_canon] at hsr
  cases hfold : lookupP fo kb.folder_path with
  | none => exact absurd (by simp [collectedDocs, hfold]) hcd
  | some files =>
      cases hds : (collectFromFiles files).1 with
      | nil => exact absurd (by simp [collectedDocs, hfold, hds]) hcd
      | cons d ds =>
          simp [initKb, shouldRebuild_canon, hsr, rebuildPath, getAllDocuments, hfold,
            hds, saveIndex, collectedDocs_canon, collectedDocs]

theorem claim_C3_witness :
    (initKb id embA ⟨KNOWLEDGE_FOLDER, INDEX_FOLDER, none, []⟩ worldSaveFail).2.2 =
        some Err.saveLocalErr ∧
      (initKb id embA ⟨KNOWLEDGE_FOLDER, INDEX_FOLDER, none, []⟩ worldSaveFail).1.vector_db =
        some (faissFromDocuments (id (collectedDocs KNOWLEDGE_FOLDER worldSaveFail)) embA) ∧
      lookupP (initKb id embA ⟨KNOWLEDGE_FOLDER, INDEX_FOLDER, none, []⟩
          worldSaveFail).2.1.stores INDEX_FOLDER = lookupP worldSaveFail.stores INDEX_FOLDER ∧
      lookupP (initKb id embA ⟨KNOWLEDGE_FOLDER, INDEX_FOLDER, none, []⟩
          worldSaveFail).2.1.metas METADATA_FILE = lookupP worldSaveFail.metas METADATA_FILE :=
  claim_C3_save_failure_propagates id embA ⟨KNOWLEDGE_FOLDER, INDEX_FOLDER, none, []⟩
    worldSaveFail rfl (by decide) (by decide) rfl

/-- The result of constructing the knowledge base on the fresh two-file world. -/
def initA : KB × World × Option Err := KB.init id embA KNOWLEDGE_FOLDER INDEX_FOLDER worldA

/-- C4 counterexample: construction loads the embedding model once, and a
subsequent `reload()` loads it a second time — the provider is not shared
across rebuilds, contradicting the claim that no later operation loads it
again. -/
theorem claim_C4_counterexample :
    countEmbedLoads initA.2.1.events = 1 ∧
    countEmbedLoads (KB.reload id embA initA.1 initA.2.1).2.1.events = 2 := by
  decide

/-- C4 (amended): the embedding provider is constructed once per
`_initialize_kb` pass — once at construction and once more on every
`reload()` — rather than once per process lifetime; each pass with a
working embedding model adds exactly one load. -/
theorem claim_C4_embed_loaded_per_pass :
    ∀ (sp : List Document → List Document) (emb : Emb) (kb : KB) (w : World),
      w.embedFails = false →
      countEmbedLoads (initKb sp emb kb w).2.1.events = countEmbedLoads w.events + 1 ∧
      countEmbedLoads (KB.reload sp emb kb w).2.1.events = countEmbedLoads w.events + 1 := by
  intro sp emb kb w hE
  refine ⟨countEmbed_initKb sp emb kb w hE, ?_⟩
  unfold KB.reload
  by_cases hd : dirExistsB w kb.index_path
  · simp only [hd, if_true]
    rw [countEmbed_initKb _ _ _ _ (by simp [rmtree, hE])]
    simp [rmtree]
  · simp only [hd, Bool.false_eq_true, if_false]
    exact countEmbed_initKb _ _ _ _ hE

theorem claim_C4_witness :
    countEmbedLoads (initKb id embA ⟨KNOWLEDGE_FOLDER, INDEX_FOLDER, none, []⟩
        worldA).2.1.events = countEmbedLoads worldA.events + 1 ∧
    countEmbedLoads (KB.reload id embA ⟨KNOWLEDGE_FOLDER, INDEX_FOLDER, none, []⟩
        worldA).2.1.events = countEmbedLoads worldA.events + 1 :=
  claim_C4_embed_loaded_per_pass id embA ⟨KNOWLEDGE_FOLDER, INDEX_FOLDER, none, []⟩ worldA rfl

/-- C7: when the Staleness Detector decides reuse but loading the persisted
index fails (I/O or deserialization), `_initialize_kb` catches the error and
falls through to the full rebuild path — collect, chunk, build, save: with
documents present and the save succeeding, the result is a freshly built
active index and a freshly written store, and no error propagates to the
caller. -/
theorem claim_C7_load_failure_recovers :
    ∀ (sp : List Document → List Document) (emb : Emb) (kb : KB) (w : World),
      w.embedFails = false →
      (shouldRebuildIndex kb w).1 = false →
      loadLocal w kb.index_path = none →
      w.saveVecFails = false → w.metaWriteFails = false →
      collectedDocs kb.folder_path w ≠ [] →
      (initKb sp emb kb w).2.2 = none ∧
      (initKb sp emb kb w).1.vector_db =
        some (faissFromDocuments (sp (collectedDocs kb.folder_path w)) emb) ∧
      lookupP (initKb sp emb kb w).2.1.stores kb.index_path =
        some (faissFromDocuments (sp (collectedDocs kb.folder_path w)) emb) := by
  intro sp emb kb w hE hsr hl h1 h2 hcd
  obtain ⟨fo, st, me, eF, lF, sF, mF, ev⟩ := w
  have hE' : eF = false := hE
  have h1' : sF = false := h1
  have h2' : mF = false := h2
  subst hE' h1' h2'
  simp only [shouldRebuild_canon] at hsr
  simp only [loadLocal_canon] at hl
  cases hfold : lookupP fo kb.folder_path with
  | none => exact absurd (by simp [collectedDocs, hfold]) hcd
  | some files =>
      cases hds : (collectFromFiles files).1 with
      | nil => exact absurd (by simp [collectedDocs, hfold, hds]) hcd
      | cons d ds =>
          simp [initKb, shouldRebuild_canon, loadLocal_canon, hsr, hl, rebuildPath,
            getAllDocuments, hfold, hds, saveIndex, saveLocal, writeMeta,
            lookupP_insert_self, collectedDocs_canon, collectedDocs]

theorem claim_C7_witness :
    (initKb id embA ⟨KNOWLEDGE_FOLDER, INDEX_FOLDER, none, []⟩ worldCurLoadFail).2.2 = none ∧
    (initKb id embA ⟨KNOWLEDGE_FOLDER, INDEX_FOLDER, none, []⟩ worldCurLoadFail).1.vector_db =
      some (faissFromDocuments (id (collectedDocs KNOWLEDGE_FOLDER worldCurLoadFail)) embA) ∧
    lookupP (initKb id embA ⟨KNOWLEDGE_FOLDER, INDEX_FOLDER, none, []⟩
        worldCurLoadFail).2.1.stores INDEX_FOLDER =
      some (faissFromDocuments (id (collectedDocs KNOWLEDGE_FOLDER worldCurLoadFail)) embA) :=
  claim_C7_load_failure_recovers id embA ⟨KNOWLEDGE_FOLDER, INDEX_FOLDER, none, []⟩
    worldCurLoadFail rfl (by decide) rfl rfl rfl (by decide)

/-- C8: persistence round-trip preserves query behaviour: saving a built
index and loading it back from the same path (the code uses
`self.index_path` for both calls) yields exactly the built index, so every
query returns the same texts in the same order as on the pre-save index. -/
theorem claim_C8_roundtrip :
    ∀ (w : World) (p : Path) (chunks : List Document) (emb : Emb) (q : String) (k : Nat),
      w.loadFails = false →
      loadLocal (saveLocal w p (faissFromDocuments chunks emb)) p =
        some (faissFromDocuments chunks emb) ∧
      ∀ db : VectorDB,
        loadLocal (saveLocal w p (faissFromDocuments chunks emb)) p = some db →
        similaritySearch db emb q k =
          similaritySearch (faissFromDocuments chunks emb) emb q k := by
  intro w p chunks emb q k hl
  have h : loadLocal (saveLocal w p (faissFromDocuments chunks emb)) p =
      some (faissFromDocuments chunks emb) := by
    simp [loadLocal, saveLocal, hl, lookupP_insert_self]
  refine ⟨h, ?_⟩
  intro db hdb
  rw [h] at hdb
  cases hdb
  rfl

theorem claim_C8_witness :
    loadLocal (saveLocal worldA INDEX_FOLDER
        (faissFromDocuments [⟨"faq.md", "Checked bags up to 23kg are free."⟩] embA))
      INDEX_FOLDER =
      some (faissFromDocuments [⟨"faq.md", "Checked bags up to 23kg are free."⟩] embA) :=
  (claim_C8_roundtrip worldA INDEX_FOLDER
    [⟨"faq.md", "Checked bags up to 23kg are free."⟩] embA "baggage" 2 rfl).1

/-- C10: `reload()` clears the active index and the loaded-files list before
rebuilding; if the embedding model fails to load or the rebuild collects
zero documents, the facade ends with no active index and `search` returns
the "not initialized" sentinel; and in every case the index after `reload`
is either `None` or a freshly built one — never the previously active
index. -/
theorem claim_C10_reload_clears :
    (∀ (sp : List Document → List Document) (emb : Emb) (kb : KB) (w : World)
        (q : String) (k : Nat), w.embedFails = true →
        (KB.reload sp emb kb w).1.vector_db = none ∧
        (KB.reload sp emb kb w).1.loaded_files = [] ∧
        KB.search (KB.reload sp emb kb w).1 emb q k = NOT_INITIALIZED) ∧
    (∀ (sp : List Document → List Document) (emb : Emb) (kb : KB) (w : World)
        (q : String) (k : Nat), w.embedFails = false →
        collectedDocs kb.folder_path w = [] →
        (KB.reload sp emb kb w).1.vector_db = none ∧
        (KB.reload sp emb kb w).1.loaded_files = [] ∧
        KB.search (KB.reload sp emb kb w).1 emb q k = NOT_INITIALIZED) ∧
    (∀ (sp : List Document → List Document) (emb : Emb) (kb : KB) (w : World),
        w.embedFails = false →
        (KB.reload sp emb kb w).1.vector_db = none ∨
        (KB.reload sp emb kb w).1.vector_db =
          some (faissFromDocuments (sp (collectedDocs kb.folder_path w)) emb)) := by
  refine ⟨?_, ?_, ?_⟩
  · intro sp emb kb w q k hE
    by_cases hd : dirExistsB w kb.index_path
    · have hE1 : (rmtree w kb.index_path).embedFails = true := hE
      simp [KB.reload, hd, initKb, hE1, KB.search]
    · simp [KB.reload, hd, initKb, hE, KB.search]
  · intro sp emb kb w q k hE hcd
    by_cases hd : dirExistsB w kb.index_path
    · have hE1 : (rmtree w kb.index_path).embedFails = false := hE
      have hsr : (shouldRebuildIndex { kb with loaded_files := [], vector_db := none }
          (rmtree w kb.index_path)).1 = true := by
        rw [shouldRebuild_noDir { kb with loaded_files := [], vector_db := none } _
          (rmtree_dirExists w kb.index_path)]
      have hred : KB.reload sp emb kb w =
          rebuildPath sp emb { kb with loaded_files := [], vector_db := none }
            { rmtree w kb.index_path with
                events := (rmtree w kb.index_path).events ++ [Event.embedLoad] } := by
        rw [KB.reload, if_pos hd]
        exact initKb_rebuild _ _ _ _ hE1 hsr
      have hcd1 : collectedDocs
          ({ kb with loaded_files := [], vector_db := none } : KB).folder_path
          { rmtree w kb.index_path with
              events := (rmtree w kb.index_path).events ++ [Event.embedLoad] } = [] := hcd
      rw [hred]
      obtain ⟨h1, h2, -⟩ := rebuildPath_empty sp emb _ _ hcd1
      refine ⟨h1, h2, ?_⟩
      simp [KB.search, h1]
    · have hsr : (shouldRebuildIndex { kb with loaded_files := [], vector_db := none }
          w).1 = true := by
        rw [shouldRebuild_noDir _ _ (by simpa using hd)]
      have hred : KB.reload sp emb kb w =
          rebuildPath sp emb { kb with loaded_files := [], vector_db := none }
            { w with events := w.events ++ [Event.embedLoad] } := by
        rw [KB.reload, if_neg hd]
        exact initKb_rebuild _ _ _ _ hE hsr
      have hcd1 : collectedDocs
          ({ kb with loaded_files := [], vector_db := none } : KB).folder_path
          { w with events := w.events ++ [Event.embedLoad] } = [] := hcd
      rw [hred]
      obtain ⟨h1, h2, -⟩ := rebuildPath_empty sp emb _ _ hcd1
      refine ⟨h1, h2, ?_⟩
      simp [KB.search, h1]
  · intro sp emb kb w hE
    by_cases hd : dirExistsB w kb.index_path
    · have hE1 : (rmtree w kb.index_path).embedFails = false := hE
      have hsr : (shouldRebuildIndex { kb with loaded_files := [], vector_db := none }
          (rmtree w kb.index_path)).1 = true := by
        rw [shouldRebuild_noDir { kb with loaded_files := [], vector_db := none } _
          (rmtree_dirExists w kb.index_path)]
      have hred : KB.reload sp emb kb w =
          rebuildPath sp emb { kb with loaded_files := [], vector_db := none }
            { rmtree w kb.index_path with
                events := (rmtree w kb.index_path).events ++ [Event.embedLoad] } := by
        rw [KB.reload, if_pos hd]
        exact initKb_rebuild _ _ _ _ hE1 hsr
      rw [hred]
      exact rebuildPath_vector_db sp emb _ _
    · have hsr : (shouldRebuildIndex { kb with loaded_files := [], vector_db := none }
          w).1 = true := by
        rw [shouldRebuild_noDir _ _ (by simpa using hd)]
      have hred : KB.reload sp emb kb w =
          rebuildPath sp emb { kb with loaded_files := [], vector_db := none }
            { w with events := w.events ++ [Event.embedLoad] } := by
        rw [KB.reload, if_neg hd]
        exact initKb_rebuild _ _ _ _ hE hsr
      rw [hred]
      exact rebuildPath_vector_db sp emb _ _

theorem claim_C10_witness :
    (KB.reload id embA ⟨KNOWLEDGE_FOLDER, INDEX_FOLDER, some dbOld, ["faq.md"]⟩
        worldEmptyFolder).1.vector_db = none ∧
    (KB.reload id embA ⟨KNOWLEDGE_FOLDER, INDEX_FOLDER, some dbOld, ["faq.md"]⟩
        worldEmptyFolder).1.loaded_files = [] ∧
    KB.search (KB.reload id embA ⟨KNOWLEDGE_FOLDER, INDEX_FOLDER, some dbOld, ["faq.md"]⟩
        worldEmptyFolder).1 embA "baggage" 3 = NOT_INITIALIZED :=
  claim_C10_reload_clears.2.1 id embA ⟨KNOWLEDGE_FOLDER, INDEX_FOLDER, some dbOld, ["faq.md"]⟩
    worldEmptyFolder "baggage" 3 rfl (by decide)

end VoiceAgent
